import Mathlib

/-!
Verification of the SolarSync monitoring client (src/src/utils.py and
src/src/monitoring.py) against its natural-language specification.

Python strings are modelled as lists of Unicode code points (List Nat).
The character-level primitives (the regex classes, str.strip, str.upper)
are modelled exactly on ASCII strings, and each definition documents where
Python behaves differently outside ASCII (Unicode digits in the \d class,
Unicode whitespace in strip, the full Unicode case mapping in upper);
universally quantified theorems about string processing are stated over
ASCII strings, where the model is exact, and the one non-ASCII behavior a
theorem relies on (str.upper sending U+017F to S) is modelled faithfully.
Python floats are modelled as rationals, Python ints as integers.
Fallible code is modelled with Except; the HTTP layer is modelled as an
oracle value describing the outcome of the requests call.
-/

namespace SolarSync

/-- Code points of a Lean string literal; used to write concrete Python
string values readably. -/
def strChars (s : String) : List Nat := s.toList.map Char.toNat

/-! ## Character classes (ASCII fragment of the Python predicates) -/

/-- Code point is an ASCII character stripped by Python str.strip: exactly
the code points below 128 whose str.isspace() is true, namely tab, newline,
vertical tab, form feed, carriage return, the separators 28-31, and space.
(Python also strips non-ASCII whitespace such as U+0085 and U+00A0; the
theorems below quantify over ASCII strings, where this set is exact.) -/
def isSpaceCp (n : Nat) : Bool :=
  decide (n = 9 ∨ n = 10 ∨ n = 11 ∨ n = 12 ∨ n = 13 ∨ n = 28 ∨ n = 29 ∨ n = 30 ∨ n = 31 ∨
    n = 32)

/-- Code point matches the regex class [a-zA-Z].  The class is an explicit
ASCII range, so this is exact for every code point. -/
def isAlphaCp (n : Nat) : Bool := decide ((65 ≤ n ∧ n ≤ 90) ∨ (97 ≤ n ∧ n ≤ 122))

/-- Code point matches the regex class [A-Z] (exact, ASCII range). -/
def isUpperCp (n : Nat) : Bool := decide (65 ≤ n ∧ n ≤ 90)

/-- Code point matches the regex class \d, restricted to the ASCII digits
0-9.  (Python \d also matches the other Unicode decimal digits; the
theorems below quantify over ASCII strings, where this predicate is
exact.) -/
def isDigitCp (n : Nat) : Bool := decide (48 ≤ n ∧ n ≤ 57)

/-- Python str.upper on a single code point, on the fragment the
development touches: the ASCII letters a-z map to A-Z, and U+017F (latin
small letter long s) maps to S, as in the full Unicode case mapping Python
applies.  Outside this fragment the model keeps the code point unchanged;
Python additionally upper-cases other non-ASCII letters and expands some
single characters to several (for example U+FB01 to FI), so the model is
exact only on ASCII strings plus the U+017F witness used below. -/
def upperCp (n : Nat) : Nat :=
  if 97 ≤ n ∧ n ≤ 122 then n - 32
  else if n = 383 then 83
  else n

/-! ## Python str.strip -/

/-- Remove trailing whitespace (the right half of Python str.strip). -/
def rstrip : List Nat → List Nat
  | [] => []
  | a :: l =>
    let r := rstrip l
    if r.isEmpty && isSpaceCp a then [] else a :: r

/-- Python str.strip: leading and trailing whitespace removed. -/
def pyStrip (s : List Nat) : List Nat := rstrip (s.dropWhile isSpaceCp)

/-! ## The regexes of format_site_id and validate_site_data

re.match(r, s) with a pattern of the form ^...$ succeeds on s exactly when
the body matches all of s, or all of s but a single trailing newline
(Python $ also matches just before a final newline).  stdCore is the body
of the pattern VS-[A-Z]{3}-\d{3}; matchStd adds the trailing-newline rule. -/

/-- Exact shape VS-[A-Z]{3}-\d{3} (code points: V=86 S=83 hyphen=45). -/
def stdCore (s : List Nat) : Bool :=
  match s with
  | v :: w :: h1 :: a :: b :: c :: h2 :: d :: e :: f :: [] =>
    v == 86 && w == 83 && h1 == 45 && isUpperCp a && isUpperCp b && isUpperCp c &&
      h2 == 45 && isDigitCp d && isDigitCp e && isDigitCp f
  | _ => false

/-- re.match result of the anchored pattern ^VS-[A-Z]{3}-\d{3}$ (a final
newline is tolerated by the $ anchor). -/
def matchStd (s : List Nat) : Bool :=
  stdCore s || (s.getLast? == some 10 && stdCore s.dropLast)

/-- The (\d+)$ tail of the two reformatting regexes: the remaining input is
a nonempty run of digits, optionally followed by a single final newline
(tolerated by $); returns the digit run (the captured group). -/
def digitsRun? (rest : List Nat) : Option (List Nat) :=
  if !rest.isEmpty && rest.all isDigitCp then some rest
  else if rest.getLast? == some 10 && !rest.dropLast.isEmpty && rest.dropLast.all isDigitCp then
    some rest.dropLast
  else none

/-- re.match of ^([a-zA-Z]{3})(\d+)$: three letters then a digit run. -/
def pat2 (s : List Nat) : Option (Nat × Nat × Nat × List Nat) :=
  match s with
  | x :: y :: z :: rest =>
    if isAlphaCp x && isAlphaCp y && isAlphaCp z then
      (digitsRun? rest).map (fun ds => (x, y, z, ds))
    else none
  | _ => none

/-- re.match of ^([a-zA-Z]{3})-(\d+)$: three letters, a hyphen, a digit run. -/
def pat3 (s : List Nat) : Option (Nat × Nat × Nat × List Nat) :=
  match s with
  | x :: y :: z :: h :: rest =>
    if isAlphaCp x && isAlphaCp y && isAlphaCp z && h == 45 then
      (digitsRun? rest).map (fun ds => (x, y, z, ds))
    else none
  | _ => none

/-- Python str.zfill 3: pad on the left with 0 (code point 48) up to width 3
(a longer string is returned unchanged; the inputs here are digit runs, so
the sign handling of zfill never fires). -/
def zfill3 (ds : List Nat) : List Nat := List.replicate (3 - ds.length) 48 ++ ds

/-- The normalized id built by the two reformatting branches:
VS-(upper letters)-(zero-padded digits). -/
def normalForm (x y z : Nat) (ds : List Nat) : List Nat :=
  [86, 83, 45, upperCp x, upperCp y, upperCp z, 45] ++ zfill3 ds

/-- utils.format_site_id (src/src/utils.py lines 63-103): empty input gives
the empty string; the input is stripped; an id already of the standard form
is returned unchanged; three letters plus digits, with or without a hyphen,
are reformatted to the normal form; anything else is uppercased verbatim. -/
def format_site_id (raw_id : List Nat) : List Nat :=
  if raw_id.isEmpty then []
  else
    let t := pyStrip raw_id
    if matchStd t then t
    else
      match pat2 t with
      | some (x, y, z, ds) => normalForm x y z ds
      | none =>
        match pat3 t with
        | some (x, y, z, ds) => normalForm x y z ds
        | none => t.map upperCp

/-! ## categorize_alert_severity (src/src/utils.py lines 292-344)

The three if/elif blocks of the source each update the running
severity_score; they are translated block by block, then chained in
categorize_alert_severity exactly as in the source. -/

/-- First if/elif block of categorize_alert_severity (score from the
production drop, utils.py lines 310-318). -/
def power_drop_step (power_drop_percent : ℚ) (severity_score : ℕ) : ℕ :=
  if power_drop_percent > 80 then severity_score + 4
  else if power_drop_percent > 50 then severity_score + 3
  else if power_drop_percent > 25 then severity_score + 2
  else if power_drop_percent > 10 then severity_score + 1
  else severity_score

/-- Second if/elif block (score from the panel temperature, lines 320-326). -/
def temperature_step (temperature : ℚ) (severity_score : ℕ) : ℕ :=
  if temperature > 80 then severity_score + 3
  else if temperature > 70 then severity_score + 2
  else if temperature > 60 then severity_score + 1
  else severity_score

/-- Third if/elif block (score from the offline duration, lines 328-334). -/
def offline_step (offline_duration_minutes : ℤ) (severity_score : ℕ) : ℕ :=
  if offline_duration_minutes > 240 then severity_score + 3
  else if offline_duration_minutes > 60 then severity_score + 2
  else if offline_duration_minutes > 15 then severity_score + 1
  else severity_score

/-- utils.categorize_alert_severity: additive score accumulated by the three
if-chains of the source, then mapped to a severity label. -/
def categorize_alert_severity (power_drop_percent temperature : ℚ)
    (offline_duration_minutes : ℤ) : String :=
  let severity_score : ℕ := 0
  let severity_score := power_drop_step power_drop_percent severity_score
  let severity_score := temperature_step temperature severity_score
  let severity_score := offline_step offline_duration_minutes severity_score
  if severity_score ≥ 8 then "critical"
  else if severity_score ≥ 5 then "high"
  else if severity_score ≥ 3 then "medium"
  else "low"

/-- Points contributed by the power drop, with strict lower bounds as in the
source (a value exactly at a threshold falls into the lower tier). -/
def power_drop_points (p : ℚ) : ℕ :=
  if p > 80 then 4 else if p > 50 then 3 else if p > 25 then 2 else if p > 10 then 1 else 0

/-- Points contributed by the panel temperature (strict lower bounds). -/
def temperature_points (t : ℚ) : ℕ :=
  if t > 80 then 3 else if t > 70 then 2 else if t > 60 then 1 else 0

/-- Points contributed by the offline duration (strict lower bounds). -/
def offline_points (o : ℤ) : ℕ :=
  if o > 240 then 3 else if o > 60 then 2 else if o > 15 then 1 else 0

/-- Map a total score to a severity label (inclusive lower bound per band). -/
def severity_band (score : ℕ) : String :=
  if score ≥ 8 then "critical"
  else if score ≥ 5 then "high"
  else if score ≥ 3 then "medium"
  else "low"

/-- Modelled from the claim text of C3: the same additive scoring but with an
inclusive lower bound on every point tier (a value exactly at a threshold
already earns the points of that tier).  Written from the words of the
claim, to be compared with categorize_alert_severity from the source. -/
def severity_classification_inclusive (p t : ℚ) (o : ℤ) : String :=
  let pScore : ℕ := if p ≥ 80 then 4 else if p ≥ 50 then 3 else if p ≥ 25 then 2 else if p ≥ 10 then 1 else 0
  let tScore : ℕ := if t ≥ 80 then 3 else if t ≥ 70 then 2 else if t ≥ 60 then 1 else 0
  let oScore : ℕ := if o ≥ 240 then 3 else if o ≥ 60 then 2 else if o ≥ 15 then 1 else 0
  severity_band (pScore + tScore + oScore)

/-! ## calculate_efficiency (src/src/utils.py lines 106-151)

Python floats are modelled as rationals.  round(x, 2) in Python rounds
half to even (bankers rounding); it is modelled exactly on rationals. -/

/-- Round a rational to the nearest integer, ties going to the even
integer (the rounding used by the Python builtin round). -/
def roundHalfEven (q : ℚ) : ℤ :=
  let f := ⌊q⌋
  let r := q - (f : ℚ)
  if r < 1 / 2 then f
  else if 1 / 2 < r then f + 1
  else if 2 ∣ f then f
  else f + 1

/-- Python round(x, 2). -/
def pyRound2 (q : ℚ) : ℚ := ((roundHalfEven (q * 100) : ℤ) : ℚ) / 100

/-- utils.calculate_efficiency: 0 on non-positive irradiance or negative
power; otherwise actual over theoretical maximum power as a percentage,
rounded to two decimals (the over-25 warning only logs, the value is
returned unchanged). -/
def calculate_efficiency (power_output irradiance : ℚ) (panel_area : ℚ := 1.6)
    (panel_count : ℤ := 1) : ℚ :=
  if irradiance ≤ 0 then 0
  else if power_output < 0 then 0
  else
    let total_area := panel_area * (panel_count : ℚ)
    let max_power_w := irradiance * total_area
    let max_power_kw := max_power_w / 1000
    if max_power_kw = 0 then 0
    else pyRound2 (power_output / max_power_kw * 100)

/-! ## validate_site_data (src/src/utils.py lines 154-217)

A Python dict value can hold any type; the types the checks distinguish are
modelled by PyVal.  isinstance(v, (int, float)) is true for int, float and
bool (bool is a subclass of int in Python).  The site-ID check calls
re.match on the raw value, which raises TypeError when the value is not a
string; validate_site_data therefore returns Except, the error case being
that uncaught TypeError.  The error messages are interpolated f-strings in
the source; they are modelled as constructors carrying the same
distinguishing information. -/

/-- A Python value stored in a site-data dict. -/
inductive PyVal where
  | str (s : List Nat)
  | int (n : ℤ)
  | float (q : ℚ)
  | bool (b : Bool)
  | pyNone
deriving DecidableEq

/-- isinstance(v, (int, float)): int, float, and bool qualify. -/
def PyVal.isNumeric : PyVal → Bool
  | .int _ => true
  | .float _ => true
  | .bool _ => true
  | _ => false

/-- Numeric value of a PyVal as used in comparisons (True counts as 1,
False as 0). -/
def PyVal.toQ : PyVal → ℚ
  | .int n => (n : ℚ)
  | .float q => q
  | .bool b => if b then 1 else 0
  | _ => 0

/-- The keys of the site-data dict that validate_site_data inspects; absent
keys are Option.none.  Other keys are never read by the function. -/
structure SiteData where
  site_id : Option PyVal
  power_output_kw : Option PyVal
  status : Option PyVal
  panel_temperature_c : Option PyVal
  irradiance_w_m2 : Option PyVal
deriving DecidableEq

/-- One accumulated validation error, mirroring the distinct append sites of
the source (the f-string messages carry the field name or offending value). -/
inductive ValidationError where
  | missingField (field : String)
  | invalidSiteId (s : List Nat)
  | powerNotNumeric
  | powerNegative
  | powerTooHigh
  | invalidStatus
  | temperatureNotNumeric
  | temperatureOutOfRange
  | irradianceNotNumeric
  | irradianceOutOfRange
deriving DecidableEq

/-- The fixed status enum of the source. -/
def valid_statuses : List (List Nat) :=
  [strChars "online", strChars "offline", strChars "maintenance", strChars "warning",
    strChars "error"]

/-- Errors of the required-fields loop (site_id, power_output_kw, status,
in loop order). -/
def requiredFieldErrors (data : SiteData) : List ValidationError :=
  (if data.site_id = none then [ValidationError.missingField "site_id"] else []) ++
    (if data.power_output_kw = none then [ValidationError.missingField "power_output_kw"]
      else []) ++
    (if data.status = none then [ValidationError.missingField "status"] else [])

/-- Errors of the power_output_kw block. -/
def powerErrors (data : SiteData) : List ValidationError :=
  match data.power_output_kw with
  | none => []
  | some v =>
    if !v.isNumeric then [ValidationError.powerNotNumeric]
    else if v.toQ < 0 then [ValidationError.powerNegative]
    else if v.toQ > 10000 then [ValidationError.powerTooHigh]
    else []

/-- Errors of the status block: membership of the raw value in the status
enum (a non-string value never equals a string, as in Python). -/
def statusErrors (data : SiteData) : List ValidationError :=
  match data.status with
  | none => []
  | some (.str s) => if s ∈ valid_statuses then [] else [ValidationError.invalidStatus]
  | some _ => [ValidationError.invalidStatus]

/-- Errors of the optional panel_temperature_c block (bounds -40..90). -/
def temperatureErrors (data : SiteData) : List ValidationError :=
  match data.panel_temperature_c with
  | none => []
  | some v =>
    if !v.isNumeric then [ValidationError.temperatureNotNumeric]
    else if v.toQ < -40 ∨ v.toQ > 90 then [ValidationError.temperatureOutOfRange]
    else []

/-- Errors of the optional irradiance_w_m2 block (bounds 0..1400). -/
def irradianceErrors (data : SiteData) : List ValidationError :=
  match data.irradiance_w_m2 with
  | none => []
  | some v =>
    if !v.isNumeric then [ValidationError.irradianceNotNumeric]
    else if v.toQ < 0 ∨ v.toQ > 1400 then [ValidationError.irradianceOutOfRange]
    else []

/-- utils.validate_site_data: the checks run independently in source order
and accumulate into one error list; the returned flag is len(errors) == 0.
When site_id holds a non-string value, re.match raises TypeError, which
the function does not catch: that is the Except.error case. -/
def validate_site_data (data : SiteData) : Except String (Bool × List ValidationError) :=
  match data.site_id with
  | some (.str s) =>
    let errors := requiredFieldErrors data ++
      (if matchStd s then [] else [ValidationError.invalidSiteId s]) ++
      powerErrors data ++ statusErrors data ++ temperatureErrors data ++
      irradianceErrors data
    Except.ok (errors.isEmpty, errors)
  | some _ => Except.error "TypeError: expected string or bytes-like object"
  | none =>
    let errors := requiredFieldErrors data ++ powerErrors data ++ statusErrors data ++
      temperatureErrors data ++ irradianceErrors data
    Except.ok (errors.isEmpty, errors)

instance {ε α : Type} [DecidableEq ε] [DecidableEq α] : DecidableEq (Except ε α) := fun x y =>
  match x, y with
  | .ok a, .ok b =>
    if h : a = b then .isTrue (by rw [h]) else .isFalse (fun hc => h (Except.ok.inj hc))
  | .error e, .error f =>
    if h : e = f then .isTrue (by rw [h]) else .isFalse (fun hc => h (Except.error.inj hc))
  | .ok _, .error _ => .isFalse (fun hc => Except.noConfusion hc)
  | .error _, .ok _ => .isFalse (fun hc => Except.noConfusion hc)

/-! ## verify_webhook_signature (src/src/utils.py lines 23-60)

The Python code calls hmac.new(secret.encode, payload.encode,
hashlib.sha256).hexdigest(); the full HMAC-SHA256 construction over UTF-8
bytes is implemented below (bytes and 32-bit words are Nat with explicit
reduction mod 2^32).  The implementation was checked against the FIPS
test vectors for SHA-256 and the RFC 4231 style HMAC values. -/

/-- UTF-8 encoding of one code point (as Python str.encode produces). -/
def utf8EncodeChar (c : ℕ) : List ℕ :=
  if c < 128 then [c]
  else if c < 2048 then [192 + c / 64, 128 + c % 64]
  else if c < 65536 then [224 + c / 4096, 128 + c / 64 % 64, 128 + c % 64]
  else [240 + c / 262144, 128 + c / 4096 % 64, 128 + c / 64 % 64, 128 + c % 64]

/-- Python str.encode("utf-8"): byte list of a code-point string. -/
def utf8Encode (s : List ℕ) : List ℕ := (s.map utf8EncodeChar).flatten

/-- Reduce to a 32-bit word. -/
def w32 (x : ℕ) : ℕ := x % 4294967296

/-- 32-bit rotate right. -/
def rotr (n x : ℕ) : ℕ := w32 ((x >>> n) ||| (x <<< (32 - n)))

/-- The SHA-256 round constants. -/
def sha256K : List ℕ :=
  [1116352408, 1899447441, 3049323471, 3921009573, 961987163, 1508970993,
   2453635748, 2870763221, 3624381080, 310598401, 607225278, 1426881987,
   1925078388, 2162078206, 2614888103, 3248222580, 3835390401, 4022224774,
   264347078, 604807628, 770255983, 1249150122, 1555081692, 1996064986,
   2554220882, 2821834349, 2952996808, 3210313671, 3336571891, 3584528711,
   113926993, 338241895, 666307205, 773529912, 1294757372, 1396182291,
   1695183700, 1986661051, 2177026350, 2456956037, 2730485921, 2820302411,
   3259730800, 3345764771, 3516065817, 3600352804, 4094571909, 275423344,
   430227734, 506948616, 659060556, 883997877, 958139571, 1322822218,
   1537002063, 1747873779, 1955562222, 2024104815, 2227730452, 2361852424,
   2428436474, 2756734187, 3204031479, 3329325298]

/-- The SHA-256 initial hash value. -/
def sha256H0 : List ℕ :=
  [1779033703, 3144134277, 1013904242, 2773480762,
   1359893119, 2600822924, 528734635, 1541459225]

/-- Big-endian byte expansion (n bytes of v). -/
def toBytesBE : ℕ → ℕ → List ℕ
  | 0, _ => []
  | n + 1, v => toBytesBE n (v / 256) ++ [v % 256]

/-- SHA-256 message padding: 0x80, zeros to 56 mod 64, 8-byte bit length. -/
def sha256Pad (msg : List ℕ) : List ℕ :=
  msg ++ [128] ++ List.replicate ((119 - msg.length % 64) % 64) 0 ++
    toBytesBE 8 (msg.length * 8)

/-- Split a byte list into 64-byte blocks. -/
def toBlocks (l : List ℕ) : List (List ℕ) :=
  if l = [] then [] else l.take 64 :: toBlocks (l.drop 64)
termination_by l.length
decreasing_by
  rename_i hne
  simp [List.length_drop]
  have := List.length_pos.mpr hne
  omega

/-- The 16 initial 32-bit words of a block (big-endian). -/
def wordsOfBlock (block : List ℕ) : List ℕ :=
  (List.range 16).map fun i =>
    (block.getD (4 * i) 0) <<< 24 + (block.getD (4 * i + 1) 0) <<< 16 +
      (block.getD (4 * i + 2) 0) <<< 8 + block.getD (4 * i + 3) 0

def smallSigma0 (x : ℕ) : ℕ := rotr 7 x ^^^ rotr 18 x ^^^ (x >>> 3)

def smallSigma1 (x : ℕ) : ℕ := rotr 17 x ^^^ rotr 19 x ^^^ (x >>> 10)

def bigSigma0 (x : ℕ) : ℕ := rotr 2 x ^^^ rotr 13 x ^^^ rotr 22 x

def bigSigma1 (x : ℕ) : ℕ := rotr 6 x ^^^ rotr 11 x ^^^ rotr 25 x

/-- SHA-256 choice function (the complement is xor with the 32-bit mask). -/
def chFn (x y z : ℕ) : ℕ := (x &&& y) ^^^ ((4294967295 ^^^ x) &&& z)

/-- SHA-256 majority function. -/
def majFn (x y z : ℕ) : ℕ := (x &&& y) ^^^ (x &&& z) ^^^ (y &&& z)

/-- Extend the message schedule by n further words. -/
def extendWords : ℕ → List ℕ → List ℕ
  | 0, ws => ws
  | n + 1, ws =>
    let i := ws.length
    let next := w32 (smallSigma1 (ws.getD (i - 2) 0) + ws.getD (i - 7) 0 +
      smallSigma0 (ws.getD (i - 15) 0) + ws.getD (i - 16) 0)
    extendWords n (ws ++ [next])

/-- The eight working registers of the compression function. -/
structure Sha256State where
  a : ℕ
  b : ℕ
  c : ℕ
  d : ℕ
  e : ℕ
  f : ℕ
  g : ℕ
  h : ℕ

/-- One round of the SHA-256 compression function. -/
def compressStep (st : Sha256State) (kw : ℕ × ℕ) : Sha256State :=
  let t1 := w32 (st.h + bigSigma1 st.e + chFn st.e st.f st.g + kw.1 + kw.2)
  let t2 := w32 (bigSigma0 st.a + majFn st.a st.b st.c)
  { a := w32 (t1 + t2), b := st.a, c := st.b, d := st.c,
    e := w32 (st.d + t1), f := st.e, g := st.f, h := st.g }

/-- Process one 64-byte block into the running hash. -/
def processBlock (hs : List ℕ) (block : List ℕ) : List ℕ :=
  let ws := extendWords 48 (wordsOfBlock block)
  let st0 : Sha256State :=
    { a := hs.getD 0 0, b := hs.getD 1 0, c := hs.getD 2 0, d := hs.getD 3 0,
      e := hs.getD 4 0, f := hs.getD 5 0, g := hs.getD 6 0, h := hs.getD 7 0 }
  let st := (sha256K.zip ws).foldl compressStep st0
  [w32 (hs.getD 0 0 + st.a), w32 (hs.getD 1 0 + st.b), w32 (hs.getD 2 0 + st.c),
    w32 (hs.getD 3 0 + st.d), w32 (hs.getD 4 0 + st.e), w32 (hs.getD 5 0 + st.f),
    w32 (hs.getD 6 0 + st.g), w32 (hs.getD 7 0 + st.h)]

/-- SHA-256 of a byte list, as 32 bytes. -/
def sha256 (msg : List ℕ) : List ℕ :=
  (((toBlocks (sha256Pad msg)).foldl processBlock sha256H0).map (toBytesBE 4)).flatten

/-- HMAC-SHA256 (hmac.new with hashlib.sha256, block size 64). -/
def hmacSha256 (key msg : List ℕ) : List ℕ :=
  let k0 := if 64 < key.length then sha256 key else key
  let key_block := k0 ++ List.replicate (64 - k0.length) 0
  let ipad := key_block.map fun b => b ^^^ 54
  let opad := key_block.map fun b => b ^^^ 92
  sha256 (opad ++ sha256 (ipad ++ msg))

/-- Lowercase hex digit of a value below 16. -/
def hexDigitCp (d : ℕ) : ℕ := if d < 10 then 48 + d else 87 + d

/-- Lowercase hex string (as code points) of a byte list, as hexdigest
produces. -/
def hexChars (bytes : List ℕ) : List ℕ :=
  (bytes.map fun b => [hexDigitCp (b / 16), hexDigitCp (b % 16)]).flatten

/-- hmac.new(secret.encode("utf-8"), payload.encode("utf-8"),
hashlib.sha256).hexdigest() of utils.py line 46-50. -/
def hmac_sha256_hexdigest (secret payload : List ℕ) : List ℕ :=
  hexChars (hmacSha256 (utf8Encode secret) (utf8Encode payload))

/-- utils.verify_webhook_signature: false immediately on an empty secret;
otherwise computes the expected HMAC hexdigest, strips an optional sha256=
prefix from the supplied signature, and compares.  hmac.compare_digest on
strings is equality (its TypeError on a non-ASCII signature is caught by
the enclosing except and returns False, which coincides with the equality
test, since the expected digest is ASCII). -/
def verify_webhook_signature (payload signature secret : List ℕ) : Bool :=
  if secret = [] then false
  else
    let expected := hmac_sha256_hexdigest secret payload
    let sig :=
      if List.isPrefixOf (strChars "sha256=") signature then signature.drop 7 else signature
    sig == expected

/-! ## The HTTP client wrapper and polling loop (src/src/monitoring.py)

The requests calls are modelled by an oracle value describing their
outcome; the local SQLite inserts are modelled by returning the list of
inserted rows alongside the Python return value. -/

/-- Outcome of the requests call made by a wrapper method: a response with
a status code and a parsed JSON body (none when response.json() raises), or
one of the exception classes distinguished by the except clauses. -/
inductive HttpResp (α : Type) where
  | resp (status : ℕ) (body : Option α)
  | timeout
  | connError
  | otherExc

/-- SolarSyncMonitor.get_site_production (monitoring.py lines 108-162):
only status 200 parses and returns the body, after caching it via
_save_production_data (modelled as the second component, the list of rows
inserted); 401, 403 and 404 are distinct logged branches returning None;
every other status falls to the final else and returns None; the Timeout,
ConnectionError and generic exception handlers return None.  A body whose
JSON parse raises is absorbed by the generic handler (the none body). -/
def get_site_production {α : Type} (site_id : String) (r : HttpResp α) :
    Option α × List (String × α) :=
  match r with
  | .resp status body =>
    if status = 200 then
      match body with
      | some data => (some data, [(site_id, data)])
      | none => (none, [])
    else if status = 401 then (none, [])
    else if status = 403 then (none, [])
    else if status = 404 then (none, [])
    else (none, [])
  | .timeout => (none, [])
  | .connError => (none, [])
  | .otherExc => (none, [])

/-- Outcome of one execution of the try body of monitor_all_sites: the
cycle ran to completion (site list fetched, every site polled, inter-cycle
sleep done), or a KeyboardInterrupt arrived, or some other exception
escaped the per-cycle body. -/
inductive CycleOutcome where
  | completed
  | keyboardInterrupt
  | raised (msg : String)
deriving DecidableEq

/-- One iteration of the while True loop of monitor_all_sites (lines
422-458): some s means the iteration ended with a sleep of s seconds and
the loop re-enters from the top (the except-Exception handler logs and
sleeps the same interval as the normal path); none means break, which only
the KeyboardInterrupt handler executes. -/
def monitor_loop_iter (interval : ℕ) (o : CycleOutcome) : Option ℕ :=
  match o with
  | .completed => some interval
  | .keyboardInterrupt => none
  | .raised _ => some interval

/-- monitor_all_sites as a trace function over an oracle of cycle outcomes:
the loop consumes outcomes until it breaks; the result lists the inter-cycle
sleeps performed and tells whether the loop terminated (true only via the
interrupt; false means it was still running when the oracle ran out). -/
def monitor_all_sites (interval : ℕ) : List CycleOutcome → List ℕ × Bool
  | [] => ([], false)
  | o :: rest =>
    match monitor_loop_iter interval o with
    | none => ([], true)
    | some s =>
      let p := monitor_all_sites interval rest
      (s :: p.1, p.2)

/-- A fetched alert dict: the four keys read by get_alerts and _save_alert;
a missing key makes dict.get give None. -/
structure Alert where
  site_id : Option String
  alert_type : Option String
  severity : Option String
  message : Option String
deriving DecidableEq

/-- A row of the local alerts table as inserted by _save_alert: the four
bound columns plus the resolved flag, whose schema default is 0 (false). -/
structure AlertRow where
  site_id : Option String
  alert_type : Option String
  severity : Option String
  message : Option String
  resolved : Bool
deriving DecidableEq

/-- SolarSyncMonitor._save_alert (lines 262-283): insert site_id, type,
severity, message; the resolved column takes its schema default. -/
def save_alert (a : Alert) : AlertRow :=
  { site_id := a.site_id, alert_type := a.alert_type, severity := a.severity,
    message := a.message, resolved := false }

/-- The severity filter of get_alerts line 250:
alert.get("severity") in ["high", "critical"]. -/
def isHighOrCritical (a : Alert) : Bool :=
  a.severity == some "high" || a.severity == some "critical"

/-- SolarSyncMonitor.get_alerts (lines 217-260): on a 200 response the
fetched alerts are all returned and the high or critical ones are saved in
fetch order; every other status and every exception yields no alerts and no
inserts.  Result: (returned list, rows inserted during the call). -/
def get_alerts (r : HttpResp (List Alert)) : List Alert × List AlertRow :=
  match r with
  | .resp status body =>
    if status = 200 then
      match body with
      | some alerts =>
        (alerts,
          alerts.foldl
            (fun rows a => if isHighOrCritical a then rows ++ [save_alert a] else rows) [])
      | none => ([], [])
    else ([], [])
  | .timeout => ([], [])
  | .connError => ([], [])
  | .otherExc => ([], [])

/-- A critical alert used as a concrete witness input. -/
def alert_example_critical : Alert :=
  { site_id := some "VS-PDD-001", alert_type := some "overheat",
    severity := some "critical", message := some "Panel temperature high" }

/-- A low alert used as a concrete witness input. -/
def alert_example_low : Alert :=
  { site_id := some "VS-PDD-001", alert_type := some "info",
    severity := some "low", message := some "Minor production dip" }

/-- A 200 response carrying one critical and one low alert. -/
def alerts_response_example : HttpResp (List Alert) :=
  .resp 200 (some [alert_example_critical, alert_example_low])

/-- The valid example payload of the spec:
site_id VS-PDD-001, power 45.2 kW (written mkRat 226 5 so that the kernel
can evaluate the comparisons), status online. -/
def site_data_example_valid : SiteData :=
  { site_id := some (.str (strChars "VS-PDD-001")),
    power_output_kw := some (.float (mkRat 226 5)),
    status := some (.str (strChars "online")),
    panel_temperature_c := none,
    irradiance_w_m2 := none }

/-- The invalid example payload of the spec: site_id missing, power -5,
status bogus. -/
def site_data_example_invalid : SiteData :=
  { site_id := none,
    power_output_kw := some (.int (-5)),
    status := some (.str (strChars "bogus")),
    panel_temperature_c := none,
    irradiance_w_m2 := none }

/-! ## Theorems for claim C3 -/

/-- Claim C3, counterexample: the claim reads the point tiers as having an
inclusive lower bound; at the input (10, 60, 15), each value sitting exactly
on its lowest threshold, the inclusive reading scores 1+1+1=3 (medium) while
the source scores 0 (low), because every comparison in the source is strict. -/
theorem categorize_alert_severity_inclusive_counterexample :
    categorize_alert_severity 10 60 15 = "low" ∧
      severity_classification_inclusive 10 60 15 = "medium" ∧
      categorize_alert_severity 10 60 15 ≠ severity_classification_inclusive 10 60 15 := by
  refine ⟨by decide, by decide, by decide⟩

/-- Claim C3 (amended): categorize_alert_severity computes an additive score,
power drop contributing 0-4 points at thresholds 10/25/50/80, temperature 0-3
points at thresholds 60/70/80, offline minutes 0-3 points at thresholds
15/60/240, each point tier entered only when the value strictly exceeds its
threshold (exclusive lower bound); the total maps to critical at score ≥ 8,
high at ≥ 5, medium at ≥ 3, low otherwise; (85, 85, 300) scores 4+3+3=10
giving critical and (5, 50, 5) scores 0 giving low. -/
theorem categorize_alert_severity_additive :
    (∀ (p t : ℚ) (o : ℤ),
      categorize_alert_severity p t o =
        severity_band (power_drop_points p + temperature_points t + offline_points o)) ∧
      power_drop_points 85 = 4 ∧ temperature_points 85 = 3 ∧ offline_points 300 = 3 ∧
      categorize_alert_severity 85 85 300 = "critical" ∧
      power_drop_points 5 = 0 ∧ temperature_points 50 = 0 ∧ offline_points 5 = 0 ∧
      categorize_alert_severity 5 50 5 = "low" := by
  refine ⟨?_, by decide, by decide, by decide, by decide, by decide, by decide, by decide, by decide⟩
  intro p t o
  have hp : power_drop_step p 0 = power_drop_points p := by
    unfold power_drop_step power_drop_points
    split_ifs <;> rfl
  have ht : ∀ s, temperature_step t s = s + temperature_points t := by
    intro s
    unfold temperature_step temperature_points
    split_ifs <;> omega
  have ho : ∀ s, offline_step o s = s + offline_points o := by
    intro s
    unfold offline_step offline_points
    split_ifs <;> omega
  calc categorize_alert_severity p t o
      = severity_band (offline_step o (temperature_step t (power_drop_step p 0))) := rfl
    _ = severity_band (power_drop_points p + temperature_points t + offline_points o) := by
        rw [ho, ht, hp]

/-! ## Character-class lemmas -/

theorem isSpaceCp_upperCp (c : ℕ) : isSpaceCp (upperCp c) = isSpaceCp c := by
  unfold upperCp isSpaceCp
  split_ifs with h1 h2
  · rw [decide_eq_decide]
    omega
  · rw [decide_eq_decide]
    omega
  · rfl

theorem isDigitCp_upperCp (c : ℕ) : isDigitCp (upperCp c) = isDigitCp c := by
  unfold upperCp isDigitCp
  split_ifs with h1 h2
  · rw [decide_eq_decide]
    omega
  · rw [decide_eq_decide]
    omega
  · rfl

theorem isAlphaCp_upperCp_of_lt (c : ℕ) (hc : c < 128) :
    isAlphaCp (upperCp c) = isAlphaCp c := by
  unfold upperCp isAlphaCp
  split_ifs with h1 h2
  · rw [decide_eq_decide]
    omega
  · omega
  · rfl

theorem upperCp_upperCp (c : ℕ) : upperCp (upperCp c) = upperCp c := by
  unfold upperCp
  split_ifs
  all_goals omega

theorem upperCp_eq_iff_of_lt (c m : ℕ) (hm : m < 65) : upperCp c = m ↔ c = m := by
  unfold upperCp
  split_ifs
  all_goals omega

theorem isUpperCp_upperCp_of_alpha (c : ℕ) (h : isAlphaCp c = true) :
    isUpperCp (upperCp c) = true := by
  unfold isAlphaCp at h
  unfold upperCp isUpperCp
  rw [decide_eq_true_eq] at h ⊢
  split_ifs
  all_goals omega

theorem not_space_of_alpha (c : ℕ) (h : isAlphaCp c = true) : isSpaceCp c = false := by
  unfold isAlphaCp at h
  unfold isSpaceCp
  rw [decide_eq_true_eq] at h
  rw [decide_eq_false_iff_not]
  omega

theorem not_space_of_digit (c : ℕ) (h : isDigitCp c = true) : isSpaceCp c = false := by
  unfold isDigitCp at h
  unfold isSpaceCp
  rw [decide_eq_true_eq] at h
  rw [decide_eq_false_iff_not]
  omega

theorem ne_ten_of_digit (c : ℕ) (h : isDigitCp c = true) : c ≠ 10 := by
  unfold isDigitCp at h
  rw [decide_eq_true_eq] at h
  omega

theorem upperCp_fix_of_not_lower (c : ℕ) (h : ¬(97 ≤ c ∧ c ≤ 122)) (h2 : c ≠ 383) :
    upperCp c = c := by
  unfold upperCp
  split_ifs
  all_goals omega

theorem upperCp_lt_128 (c : ℕ) (h : c < 128) : upperCp c < 128 := by
  unfold upperCp
  split_ifs
  all_goals omega

/-! ## Lemmas about pyStrip -/

theorem dropWhile_dropWhile {α : Type} (p : α → Bool) (l : List α) :
    (l.dropWhile p).dropWhile p = l.dropWhile p := by
  induction l with
  | nil => rfl
  | cons a l ih =>
    by_cases h : p a
    · simp [List.dropWhile_cons, h, ih]
    · simp [List.dropWhile_cons, h]

theorem dropWhile_head_false {α : Type} (p : α → Bool) (l : List α) (a : α) (t : List α)
    (h : l.dropWhile p = a :: t) : p a = false := by
  induction l with
  | nil => simp at h
  | cons b l ih =>
    rw [List.dropWhile_cons] at h
    by_cases hb : p b
    · rw [if_pos hb] at h
      exact ih h
    · rw [if_neg hb] at h
      cases h
      exact Bool.eq_false_iff.mpr hb

theorem rstrip_cons_shape (a : ℕ) (l : List ℕ) :
    rstrip (a :: l) = [] ∨ ∃ t, rstrip (a :: l) = a :: t := by
  rw [show rstrip (a :: l) =
      (if (rstrip l).isEmpty && isSpaceCp a then [] else a :: rstrip l) from rfl]
  split_ifs with h
  · exact Or.inl rfl
  · exact Or.inr ⟨rstrip l, rfl⟩

theorem rstrip_idem (l : List ℕ) : rstrip (rstrip l) = rstrip l := by
  induction l with
  | nil => rfl
  | cons a l ih =>
    rw [show rstrip (a :: l) =
        (if (rstrip l).isEmpty && isSpaceCp a then [] else a :: rstrip l) from rfl]
    split_ifs with h
    · rfl
    · rw [show rstrip (a :: rstrip l) =
          (if (rstrip (rstrip l)).isEmpty && isSpaceCp a then [] else a :: rstrip (rstrip l))
          from rfl]
      rw [ih, if_neg h]

theorem rstrip_getLast_not_space (l : List ℕ) (c : ℕ)
    (h : (rstrip l).getLast? = some c) : isSpaceCp c = false := by
  induction l with
  | nil => simp [rstrip] at h
  | cons a l ih =>
    rw [show rstrip (a :: l) =
        (if (rstrip l).isEmpty && isSpaceCp a then [] else a :: rstrip l) from rfl] at h
    split_ifs at h with hc
    · simp at h
    · cases hr : rstrip l with
      | nil =>
        rw [hr] at h hc
        simp at h hc
        rw [← h]
        exact hc
      | cons b t =>
        rw [hr] at h
        rw [List.getLast?_cons_cons] at h
        rw [← hr] at h
        exact ih h

theorem rstrip_of_forall_not_space (l : List ℕ) (h : ∀ c ∈ l, isSpaceCp c = false) :
    rstrip l = l := by
  induction l with
  | nil => rfl
  | cons a l ih =>
    rw [show rstrip (a :: l) =
        (if (rstrip l).isEmpty && isSpaceCp a then [] else a :: rstrip l) from rfl]
    rw [h a (List.mem_cons_self a l), Bool.and_false, if_neg (by simp)]
    rw [ih fun c hc => h c (List.mem_cons_of_mem a hc)]

theorem pyStrip_idem (s : List ℕ) : pyStrip (pyStrip s) = pyStrip s := by
  unfold pyStrip
  have hdrop : (rstrip (s.dropWhile isSpaceCp)).dropWhile isSpaceCp
      = rstrip (s.dropWhile isSpaceCp) := by
    cases hu : s.dropWhile isSpaceCp with
    | nil => simp [rstrip]
    | cons a l =>
      have ha : isSpaceCp a = false := dropWhile_head_false isSpaceCp s a l hu
      rcases rstrip_cons_shape a l with h1 | ⟨t, h2⟩
      · rw [h1]
        rfl
      · rw [h2, List.dropWhile_cons, ha]
        simp
  rw [hdrop, rstrip_idem]

theorem pyStrip_getLast_not_space (s : List ℕ) (c : ℕ)
    (h : (pyStrip s).getLast? = some c) : isSpaceCp c = false :=
  rstrip_getLast_not_space _ c h

theorem pyStrip_of_forall_not_space (l : List ℕ) (h : ∀ c ∈ l, isSpaceCp c = false) :
    pyStrip l = l := by
  unfold pyStrip
  rw [List.dropWhile_eq_self_iff.mpr ?_, rstrip_of_forall_not_space l h]
  intro hl
  have hm := h _ (List.get_mem l 0 hl)
  simpa using hm

/-! ## Commutation of str.upper with strip and the matchers -/

theorem isEmpty_map_upperCp (l : List ℕ) : (l.map upperCp).isEmpty = l.isEmpty := by
  cases l <;> rfl

theorem dropWhile_map_upperCp (l : List ℕ) :
    (l.map upperCp).dropWhile isSpaceCp = (l.dropWhile isSpaceCp).map upperCp := by
  induction l with
  | nil => rfl
  | cons a l ih =>
    rw [List.map_cons, List.dropWhile_cons, List.dropWhile_cons, isSpaceCp_upperCp]
    by_cases h : isSpaceCp a
    · rw [if_pos h, if_pos h, ih]
    · rw [if_neg h, if_neg h, List.map_cons]

theorem rstrip_map_upperCp (l : List ℕ) : rstrip (l.map upperCp) = (rstrip l).map upperCp := by
  induction l with
  | nil => rfl
  | cons a l ih =>
    rw [List.map_cons]
    rw [show rstrip (upperCp a :: l.map upperCp) =
        (if (rstrip (l.map upperCp)).isEmpty && isSpaceCp (upperCp a) then []
          else upperCp a :: rstrip (l.map upperCp)) from rfl]
    rw [show rstrip (a :: l) =
        (if (rstrip l).isEmpty && isSpaceCp a then [] else a :: rstrip l) from rfl]
    rw [ih, isEmpty_map_upperCp, isSpaceCp_upperCp]
    by_cases h : (rstrip l).isEmpty && isSpaceCp a
    · rw [if_pos h, if_pos h]
      rfl
    · rw [if_neg h, if_neg h, List.map_cons]

theorem pyStrip_map_upperCp (l : List ℕ) : pyStrip (l.map upperCp) = (pyStrip l).map upperCp := by
  unfold pyStrip
  rw [dropWhile_map_upperCp, rstrip_map_upperCp]

theorem map_upperCp_fix (l : List ℕ) (h : ∀ c ∈ l, upperCp c = c) : l.map upperCp = l := by
  induction l with
  | nil => rfl
  | cons a l ih =>
    rw [List.map_cons, h a (List.mem_cons_self a l),
      ih fun c hc => h c (List.mem_cons_of_mem a hc)]

/-! ## Characterization of the matchers -/

theorem stdCore_iff (s : List ℕ) :
    stdCore s = true ↔ ∃ a b c d e f, s = [86, 83, 45, a, b, c, 45, d, e, f] ∧
      isUpperCp a = true ∧ isUpperCp b = true ∧ isUpperCp c = true ∧
      isDigitCp d = true ∧ isDigitCp e = true ∧ isDigitCp f = true := by
  constructor
  · intro h
    unfold stdCore at h
    split at h
    · rename_i v w h1 a b c h2 d e f
      simp only [Bool.and_eq_true, beq_iff_eq] at h
      obtain ⟨⟨⟨⟨⟨⟨⟨⟨⟨hv, hw⟩, hh1⟩, ha⟩, hb⟩, hc⟩, hh2⟩, hd⟩, he⟩, hf⟩ := h
      subst hv hw hh1 hh2
      exact ⟨a, b, c, d, e, f, rfl, ha, hb, hc, hd, he, hf⟩
    · exact absurd h (by simp)
  · rintro ⟨a, b, c, d, e, f, rfl, ha, hb, hc, hd, he, hf⟩
    simp [stdCore, ha, hb, hc, hd, he, hf]

theorem getLast?_cons_of_ne_nil (a : ℕ) (l : List ℕ) (h : l ≠ []) :
    (a :: l).getLast? = l.getLast? := by
  cases l with
  | nil => exact absurd rfl h
  | cons b t => exact List.getLast?_cons_cons

theorem getLast_of_all (l : List ℕ) (p : ℕ → Bool) (h1 : l ≠ []) (h2 : l.all p = true) :
    ∃ c, l.getLast? = some c ∧ p c = true := by
  induction l with
  | nil => exact absurd rfl h1
  | cons a t ih =>
    cases t with
    | nil =>
      refine ⟨a, by simp, ?_⟩
      rw [List.all_cons, Bool.and_eq_true] at h2
      exact h2.1
    | cons b u =>
      rw [List.getLast?_cons_cons]
      rw [List.all_cons, Bool.and_eq_true] at h2
      exact ih (by simp) h2.2

theorem digitsRun?_of_all_digits (ds : List ℕ) (h1 : ds ≠ []) (h2 : ds.all isDigitCp = true) :
    digitsRun? ds = some ds := by
  unfold digitsRun?
  rw [if_pos]
  rw [Bool.and_eq_true, Bool.not_eq_true', List.isEmpty_eq_false]
  exact ⟨h1, h2⟩

theorem digitsRun?_sound (rest ds : List ℕ) (h : digitsRun? rest = some ds) :
    ds ≠ [] ∧ ds.all isDigitCp = true := by
  unfold digitsRun? at h
  split_ifs at h with h1 h2
  · cases h
    rw [Bool.and_eq_true, Bool.not_eq_true', List.isEmpty_eq_false] at h1
    exact h1
  · cases h
    rw [Bool.and_eq_true, Bool.and_eq_true, Bool.not_eq_true', List.isEmpty_eq_false] at h2
    exact ⟨h2.1.2, h2.2⟩

theorem getLast?_map_upperCp_beq_ten (l : List ℕ) :
    ((l.map upperCp).getLast? == some 10) = (l.getLast? == some 10) := by
  rw [List.getLast?_map]
  cases hl : l.getLast? with
  | none => rfl
  | some c =>
    apply Bool.coe_iff_coe.mp
    simp only [Option.map_some', beq_iff_eq, Option.some.injEq]
    exact upperCp_eq_iff_of_lt c 10 (by omega)

theorem all_digits_map_upperCp (l : List ℕ) :
    (l.map upperCp).all isDigitCp = l.all isDigitCp := by
  induction l with
  | nil => rfl
  | cons a l ih => rw [List.map_cons, List.all_cons, List.all_cons, isDigitCp_upperCp, ih]

theorem digitsRun?_map_upperCp_none (rest : List ℕ) (h : digitsRun? rest = none) :
    digitsRun? (rest.map upperCp) = none := by
  unfold digitsRun? at h ⊢
  split_ifs at h with h1 h2
  rw [if_neg, if_neg]
  · rw [getLast?_map_upperCp_beq_ten, ← List.map_dropLast, isEmpty_map_upperCp,
      all_digits_map_upperCp]
    exact h2
  · rw [isEmpty_map_upperCp, all_digits_map_upperCp]
    exact h1

theorem pat2_cons_eq (x y z : ℕ) (rest : List ℕ) :
    pat2 (x :: y :: z :: rest) =
      (if isAlphaCp x && isAlphaCp y && isAlphaCp z then
        (digitsRun? rest).map (fun ds => (x, y, z, ds))
      else none) := rfl

theorem pat3_cons_eq (x y z w : ℕ) (rest : List ℕ) :
    pat3 (x :: y :: z :: w :: rest) =
      (if isAlphaCp x && isAlphaCp y && isAlphaCp z && (w == 45) then
        (digitsRun? rest).map (fun ds => (x, y, z, ds))
      else none) := rfl

theorem pat2_mk (x y z : ℕ) (ds : List ℕ) (hx : isAlphaCp x = true) (hy : isAlphaCp y = true)
    (hz : isAlphaCp z = true) (h1 : ds ≠ []) (h2 : ds.all isDigitCp = true) :
    pat2 (x :: y :: z :: ds) = some (x, y, z, ds) := by
  rw [pat2_cons_eq, hx, hy, hz]
  simp [digitsRun?_of_all_digits ds h1 h2]

theorem pat2_sound (t : List ℕ) (x y z : ℕ) (ds : List ℕ) (h : pat2 t = some (x, y, z, ds)) :
    isAlphaCp x = true ∧ isAlphaCp y = true ∧ isAlphaCp z = true ∧
      ds ≠ [] ∧ ds.all isDigitCp = true := by
  match t with
  | [] => exact absurd h (by simp [pat2])
  | [a] => exact absurd h (by simp [pat2])
  | [a, b] => exact absurd h (by simp [pat2])
  | a :: b :: c :: rest =>
    rw [pat2_cons_eq] at h
    split_ifs at h with hc
    obtain ⟨ds', hd1, hd2⟩ := Option.map_eq_some'.mp h
    simp only [Prod.mk.injEq] at hd2
    obtain ⟨he1, he2, he3, he4⟩ := hd2
    subst he1 he2 he3 he4
    simp only [Bool.and_eq_true] at hc
    obtain ⟨h1, h2⟩ := digitsRun?_sound _ _ hd1
    exact ⟨hc.1.1, hc.1.2, hc.2, h1, h2⟩

theorem pat3_mk (x y z : ℕ) (ds : List ℕ) (hx : isAlphaCp x = true) (hy : isAlphaCp y = true)
    (hz : isAlphaCp z = true) (h1 : ds ≠ []) (h2 : ds.all isDigitCp = true) :
    pat3 (x :: y :: z :: 45 :: ds) = some (x, y, z, ds) := by
  rw [pat3_cons_eq, hx, hy, hz]
  simp [digitsRun?_of_all_digits ds h1 h2]

theorem pat3_sound (t : List ℕ) (x y z : ℕ) (ds : List ℕ) (h : pat3 t = some (x, y, z, ds)) :
    isAlphaCp x = true ∧ isAlphaCp y = true ∧ isAlphaCp z = true ∧
      ds ≠ [] ∧ ds.all isDigitCp = true := by
  match t with
  | [] => exact absurd h (by simp [pat3])
  | [a] => exact absurd h (by simp [pat3])
  | [a, b] => exact absurd h (by simp [pat3])
  | [a, b, c] => exact absurd h (by simp [pat3])
  | a :: b :: c :: w :: rest =>
    rw [pat3_cons_eq] at h
    split_ifs at h with hc
    obtain ⟨ds', hd1, hd2⟩ := Option.map_eq_some'.mp h
    simp only [Prod.mk.injEq] at hd2
    obtain ⟨he1, he2, he3, he4⟩ := hd2
    subst he1 he2 he3 he4
    simp only [Bool.and_eq_true] at hc
    obtain ⟨h1, h2⟩ := digitsRun?_sound _ _ hd1
    exact ⟨hc.1.1.1, hc.1.1.2, hc.1.2, h1, h2⟩

theorem pat2_map_upperCp_none (t : List ℕ) (h : pat2 t = none)
    (hA : ∀ c ∈ t, c < 128) : pat2 (t.map upperCp) = none := by
  match t with
  | [] => rfl
  | [a] => rfl
  | [a, b] => rfl
  | x :: y :: z :: rest =>
    simp only [List.map_cons]
    rw [pat2_cons_eq] at h
    rw [pat2_cons_eq, isAlphaCp_upperCp_of_lt x (hA x (by simp)),
      isAlphaCp_upperCp_of_lt y (hA y (by simp)), isAlphaCp_upperCp_of_lt z (hA z (by simp))]
    by_cases hc : isAlphaCp x && isAlphaCp y && isAlphaCp z
    · rw [if_pos hc] at h ⊢
      rw [Option.map_eq_none'] at h
      rw [Option.map_eq_none']
      exact digitsRun?_map_upperCp_none rest h
    · rw [if_neg hc]

theorem beq_45_upperCp (c : ℕ) : (upperCp c == 45) = (c == 45) := by
  apply Bool.coe_iff_coe.mp
  simp only [beq_iff_eq]
  exact upperCp_eq_iff_of_lt c 45 (by omega)

theorem pat3_map_upperCp_none (t : List ℕ) (h : pat3 t = none)
    (hA : ∀ c ∈ t, c < 128) : pat3 (t.map upperCp) = none := by
  match t with
  | [] => rfl
  | [a] => rfl
  | [a, b] => rfl
  | [a, b, c] => rfl
  | x :: y :: z :: w :: rest =>
    simp only [List.map_cons]
    rw [pat3_cons_eq] at h
    rw [pat3_cons_eq, isAlphaCp_upperCp_of_lt x (hA x (by simp)),
      isAlphaCp_upperCp_of_lt y (hA y (by simp)), isAlphaCp_upperCp_of_lt z (hA z (by simp)),
      beq_45_upperCp]
    by_cases hc : isAlphaCp x && isAlphaCp y && isAlphaCp z && (w == 45)
    · rw [if_pos hc] at h ⊢
      rw [Option.map_eq_none'] at h
      rw [Option.map_eq_none']
      exact digitsRun?_map_upperCp_none rest h
    · rw [if_neg hc]

/-! ## Facts about zfill3 and the normal form -/

theorem zfill3_ne_nil (ds : List ℕ) (h : ds ≠ []) : zfill3 ds ≠ [] := by
  intro hc
  exact h (List.append_eq_nil.mp hc).2

theorem zfill3_all_digits (ds : List ℕ) (h : ds.all isDigitCp = true) :
    (zfill3 ds).all isDigitCp = true := by
  unfold zfill3
  rw [List.all_append, Bool.and_eq_true]
  refine ⟨?_, h⟩
  rw [List.all_eq_true]
  intro x hx
  rw [List.eq_of_mem_replicate hx]
  decide

theorem zfill3_getLast (ds : List ℕ) (h : ds ≠ []) : (zfill3 ds).getLast? = ds.getLast? :=
  List.getLast?_append_of_ne_nil _ h

theorem normalForm_cons_eq (x y z : ℕ) (ds : List ℕ) :
    normalForm x y z ds =
      86 :: 83 :: 45 :: upperCp x :: upperCp y :: upperCp z :: 45 :: zfill3 ds := by
  simp [normalForm]

theorem normalForm_length (x y z : ℕ) (ds : List ℕ) :
    (normalForm x y z ds).length = 7 + max 3 ds.length := by
  simp [normalForm, zfill3]
  omega

theorem normalForm_not_space (x y z : ℕ) (ds : List ℕ) (hx : isAlphaCp x = true)
    (hy : isAlphaCp y = true) (hz : isAlphaCp z = true) (hds : ds.all isDigitCp = true) :
    ∀ c ∈ normalForm x y z ds, isSpaceCp c = false := by
  intro c hc
  simp only [normalForm, zfill3, List.mem_append, List.mem_cons, List.not_mem_nil, or_false]
    at hc
  rcases hc with (h | h | h | h | h | h | h) | (h | h)
  · rw [h]; decide
  · rw [h]; decide
  · rw [h]; decide
  · rw [h, isSpaceCp_upperCp]; exact not_space_of_alpha x hx
  · rw [h, isSpaceCp_upperCp]; exact not_space_of_alpha y hy
  · rw [h, isSpaceCp_upperCp]; exact not_space_of_alpha z hz
  · rw [h]; decide
  · rw [List.eq_of_mem_replicate h]; decide
  · exact not_space_of_digit c (List.all_eq_true.mp hds c h)

theorem normalForm_getLast_digit (x y z : ℕ) (ds : List ℕ) (hne : ds ≠ [])
    (hds : ds.all isDigitCp = true) :
    ∃ c, (normalForm x y z ds).getLast? = some c ∧ isDigitCp c = true := by
  rw [show normalForm x y z ds = [86, 83, 45, upperCp x, upperCp y, upperCp z, 45] ++ zfill3 ds
      from rfl]
  rw [List.getLast?_append_of_ne_nil _ (zfill3_ne_nil ds hne), zfill3_getLast ds hne]
  exact getLast_of_all ds isDigitCp hne hds

theorem beq_some_ten_false_of_digit (l : List ℕ) (c : ℕ) (h : l.getLast? = some c)
    (hd : isDigitCp c = true) : (l.getLast? == some 10) = false := by
  rw [h]
  have := ne_ten_of_digit c hd
  simp [this]

theorem stdCore_normalForm_of_le (x y z : ℕ) (ds : List ℕ) (hx : isAlphaCp x = true)
    (hy : isAlphaCp y = true) (hz : isAlphaCp z = true) (hne : ds ≠ [])
    (hds : ds.all isDigitCp = true) (hlen : ds.length ≤ 3) :
    stdCore (normalForm x y z ds) = true := by
  apply (stdCore_iff _).mpr
  match ds with
  | [] => exact absurd rfl hne
  | [d1] =>
    simp only [List.all_cons, List.all_nil, Bool.and_true, Bool.and_eq_true] at hds
    exact ⟨upperCp x, upperCp y, upperCp z, 48, 48, d1, by simp [normalForm, zfill3],
      isUpperCp_upperCp_of_alpha x hx, isUpperCp_upperCp_of_alpha y hy,
      isUpperCp_upperCp_of_alpha z hz, by decide, by decide, hds⟩
  | [d1, d2] =>
    simp only [List.all_cons, List.all_nil, Bool.and_true, Bool.and_eq_true] at hds
    exact ⟨upperCp x, upperCp y, upperCp z, 48, d1, d2, by simp [normalForm, zfill3],
      isUpperCp_upperCp_of_alpha x hx, isUpperCp_upperCp_of_alpha y hy,
      isUpperCp_upperCp_of_alpha z hz, by decide, hds.1, hds.2⟩
  | [d1, d2, d3] =>
    simp only [List.all_cons, List.all_nil, Bool.and_true, Bool.and_eq_true] at hds
    exact ⟨upperCp x, upperCp y, upperCp z, d1, d2, d3, by simp [normalForm, zfill3],
      isUpperCp_upperCp_of_alpha x hx, isUpperCp_upperCp_of_alpha y hy,
      isUpperCp_upperCp_of_alpha z hz, hds.1, hds.2.1, hds.2.2⟩
  | d1 :: d2 :: d3 :: d4 :: tl => simp at hlen

theorem stdCore_normalForm_false_of_gt (x y z : ℕ) (ds : List ℕ) (hlen : 3 < ds.length) :
    stdCore (normalForm x y z ds) = false := by
  cases hsc : stdCore (normalForm x y z ds) with
  | false => rfl
  | true =>
    obtain ⟨a, b, c, d, e, f, hshape, -⟩ := (stdCore_iff _).mp hsc
    have := congrArg List.length hshape
    rw [normalForm_length] at this
    simp at this
    omega

theorem matchStd_normalForm_false_of_gt (x y z : ℕ) (ds : List ℕ) (hne : ds ≠ [])
    (hds : ds.all isDigitCp = true) (hlen : 3 < ds.length) :
    matchStd (normalForm x y z ds) = false := by
  unfold matchStd
  rw [stdCore_normalForm_false_of_gt x y z ds hlen, Bool.false_or]
  obtain ⟨c, hc1, hc2⟩ := normalForm_getLast_digit x y z ds hne hds
  rw [beq_some_ten_false_of_digit _ c hc1 hc2, Bool.false_and]

theorem pat2_normalForm_none (x y z : ℕ) (ds : List ℕ) :
    pat2 (normalForm x y z ds) = none := by
  rw [normalForm_cons_eq, pat2_cons_eq, if_neg (by decide)]

theorem pat3_normalForm_none (x y z : ℕ) (ds : List ℕ) :
    pat3 (normalForm x y z ds) = none := by
  rw [normalForm_cons_eq, pat3_cons_eq, if_neg]
  have h45 : isAlphaCp 45 = false := by decide
  simp [h45]

theorem map_upperCp_normalForm (x y z : ℕ) (ds : List ℕ) (hds : ds.all isDigitCp = true) :
    (normalForm x y z ds).map upperCp = normalForm x y z ds := by
  apply map_upperCp_fix
  intro c hc
  simp only [normalForm, zfill3, List.mem_append, List.mem_cons, List.not_mem_nil, or_false]
    at hc
  rcases hc with (h | h | h | h | h | h | h) | (h | h)
  · rw [h]; decide
  · rw [h]; decide
  · rw [h]; decide
  · rw [h]; exact upperCp_upperCp x
  · rw [h]; exact upperCp_upperCp y
  · rw [h]; exact upperCp_upperCp z
  · rw [h]; decide
  · rw [List.eq_of_mem_replicate h]; decide
  · have := List.all_eq_true.mp hds c h
    unfold isDigitCp at this
    rw [decide_eq_true_eq] at this
    exact upperCp_fix_of_not_lower c (by omega) (by omega)

theorem pyStrip_normalForm (x y z : ℕ) (ds : List ℕ) (hx : isAlphaCp x = true)
    (hy : isAlphaCp y = true) (hz : isAlphaCp z = true) (hds : ds.all isDigitCp = true) :
    pyStrip (normalForm x y z ds) = normalForm x y z ds :=
  pyStrip_of_forall_not_space _ (normalForm_not_space x y z ds hx hy hz hds)

/-! ## Unfolding format_site_id and its fixed points -/

theorem format_site_id_eq (s : List ℕ) (h : s.isEmpty = false) :
    format_site_id s =
      (if matchStd (pyStrip s) then pyStrip s
      else
        match pat2 (pyStrip s) with
        | some (x, y, z, ds) => normalForm x y z ds
        | none =>
          match pat3 (pyStrip s) with
          | some (x, y, z, ds) => normalForm x y z ds
          | none => (pyStrip s).map upperCp) := by
  unfold format_site_id
  rw [h]
  simp

theorem normalForm_fix (x y z : ℕ) (ds : List ℕ) (hx : isAlphaCp x = true)
    (hy : isAlphaCp y = true) (hz : isAlphaCp z = true) (hne : ds ≠ [])
    (hds : ds.all isDigitCp = true) :
    format_site_id (normalForm x y z ds) = normalForm x y z ds := by
  have hne' : (normalForm x y z ds).isEmpty = false := by simp [normalForm]
  rw [format_site_id_eq _ hne', pyStrip_normalForm x y z ds hx hy hz hds]
  by_cases hlen : ds.length ≤ 3
  · have hm : matchStd (normalForm x y z ds) = true := by
      unfold matchStd
      rw [stdCore_normalForm_of_le x y z ds hx hy hz hne hds hlen, Bool.true_or]
    rw [if_pos hm]
  · have hm : matchStd (normalForm x y z ds) = false :=
      matchStd_normalForm_false_of_gt x y z ds hne hds (by omega)
    rw [hm]
    simp only [Bool.false_eq_true, if_false]
    rw [pat2_normalForm_none]
    simp only
    rw [pat3_normalForm_none]
    simp only
    exact map_upperCp_normalForm x y z ds hds

theorem mem_of_mem_rstrip (l : List ℕ) (c : ℕ) (h : c ∈ rstrip l) : c ∈ l := by
  induction l with
  | nil => exact absurd h (by simp [rstrip])
  | cons a t ih =>
    rw [show rstrip (a :: t) =
        (if (rstrip t).isEmpty && isSpaceCp a then [] else a :: rstrip t) from rfl] at h
    split_ifs at h
    · exact absurd h (by simp)
    · rcases List.mem_cons.mp h with h | h
      · rw [h]
        exact List.mem_cons_self a t
      · exact List.mem_cons_of_mem a (ih h)

theorem mem_of_mem_pyStrip (s : List ℕ) (c : ℕ) (h : c ∈ pyStrip s) : c ∈ s := by
  unfold pyStrip at h
  exact (List.dropWhile_sublist isSpaceCp).mem (mem_of_mem_rstrip _ c h)

/-- Idempotence of format_site_id over ASCII inputs.  The restriction to
code points below 128 is where the character model is exact; on non-ASCII
input the real function need not be idempotent, because str.upper applies
the full Unicode case mapping (the counterexample below). -/
theorem format_site_id_idem_ascii (s : List ℕ) (hA : ∀ c ∈ s, c < 128) :
    format_site_id (format_site_id s) = format_site_id s := by
  have hAt : ∀ c ∈ pyStrip s, c < 128 := fun c hc => hA c (mem_of_mem_pyStrip s c hc)
  by_cases h0 : s.isEmpty
  · have h1 : format_site_id s = [] := by
      unfold format_site_id
      rw [if_pos h0]
    rw [h1]
    rfl
  · have h0' : s.isEmpty = false := Bool.eq_false_iff.mpr h0
    rw [format_site_id_eq s h0']
    by_cases h1 : matchStd (pyStrip s)
    · rw [if_pos h1]
      have hne : (pyStrip s).isEmpty = false := by
        cases hp : pyStrip s with
        | nil =>
          rw [hp] at h1
          exact absurd h1 (by decide)
        | cons a t => rfl
      rw [format_site_id_eq _ hne, pyStrip_idem, if_pos h1]
    · rw [if_neg h1]
      cases hp2 : pat2 (pyStrip s) with
      | some q =>
        obtain ⟨x, y, z, ds⟩ := q
        simp only
        obtain ⟨hx, hy, hz, hne, hds⟩ := pat2_sound _ x y z ds hp2
        exact normalForm_fix x y z ds hx hy hz hne hds
      | none =>
        simp only
        cases hp3 : pat3 (pyStrip s) with
        | some q =>
          obtain ⟨x, y, z, ds⟩ := q
          simp only
          obtain ⟨hx, hy, hz, hne, hds⟩ := pat3_sound _ x y z ds hp3
          exact normalForm_fix x y z ds hx hy hz hne hds
        | none =>
          simp only
          by_cases ho : ((pyStrip s).map upperCp).isEmpty
          · rw [List.isEmpty_iff.mp ho]
            rfl
          · have ho' : ((pyStrip s).map upperCp).isEmpty = false := Bool.eq_false_iff.mpr ho
            rw [format_site_id_eq _ ho']
            have hps : pyStrip ((pyStrip s).map upperCp) = (pyStrip s).map upperCp := by
              rw [pyStrip_map_upperCp, pyStrip_idem]
            rw [hps]
            by_cases hm : matchStd ((pyStrip s).map upperCp)
            · rw [if_pos hm]
            · rw [if_neg hm, pat2_map_upperCp_none _ hp2 hAt]
              simp only
              rw [pat3_map_upperCp_none _ hp3 hAt]
              simp only
              rw [List.map_map]
              exact List.map_eq_map_iff.mpr fun c _ => upperCp_upperCp c

/-! ## format_site_id on three letters plus digits -/

theorem stdCore_cons3_false (x y z : ℕ) (rest : List ℕ) (hz : isAlphaCp z = true) :
    stdCore (x :: y :: z :: rest) = false := by
  cases hsc : stdCore (x :: y :: z :: rest) with
  | false => rfl
  | true =>
    obtain ⟨a, b, c, d, e, f, hshape, -⟩ := (stdCore_iff _).mp hsc
    simp only [List.cons.injEq] at hshape
    rw [hshape.2.2.1] at hz
    exact absurd hz (by decide)

theorem getLast?_cons3 (x y z : ℕ) (ds : List ℕ) (hne : ds ≠ []) :
    (x :: y :: z :: ds).getLast? = ds.getLast? := by
  rw [getLast?_cons_of_ne_nil x _ (by simp), getLast?_cons_of_ne_nil y _ (by simp),
    getLast?_cons_of_ne_nil z _ hne]

theorem format_site_id_letters (x y z : ℕ) (ds : List ℕ) (hx : isAlphaCp x = true)
    (hy : isAlphaCp y = true) (hz : isAlphaCp z = true) (hne : ds ≠ [])
    (hds : ds.all isDigitCp = true) :
    format_site_id (x :: y :: z :: ds) = normalForm x y z ds := by
  have hstrip : pyStrip (x :: y :: z :: ds) = x :: y :: z :: ds := by
    apply pyStrip_of_forall_not_space
    intro c hc
    simp only [List.mem_cons] at hc
    rcases hc with h | h | h | h
    · rw [h]; exact not_space_of_alpha x hx
    · rw [h]; exact not_space_of_alpha y hy
    · rw [h]; exact not_space_of_alpha z hz
    · exact not_space_of_digit c (List.all_eq_true.mp hds c h)
  have hmatch : matchStd (x :: y :: z :: ds) = false := by
    unfold matchStd
    rw [stdCore_cons3_false x y z ds hz, Bool.false_or]
    obtain ⟨c, hc1, hc2⟩ := getLast_of_all ds isDigitCp hne hds
    have hLast : (x :: y :: z :: ds).getLast? = some c := by
      rw [getLast?_cons3 x y z ds hne]; exact hc1
    rw [beq_some_ten_false_of_digit _ c hLast hc2, Bool.false_and]
  rw [format_site_id_eq _ (by rfl), hstrip, hmatch]
  simp only [Bool.false_eq_true, if_false]
  rw [pat2_mk x y z ds hx hy hz hne hds]

theorem digitsRun?_hyphen_none (ds : List ℕ) (hne : ds ≠ []) (hds : ds.all isDigitCp = true) :
    digitsRun? (45 :: ds) = none := by
  obtain ⟨c, hc1, hc2⟩ := getLast_of_all ds isDigitCp hne hds
  have hLast : (45 :: ds).getLast? = some c := by
    rw [getLast?_cons_of_ne_nil 45 ds hne]; exact hc1
  unfold digitsRun?
  rw [if_neg, if_neg]
  · rw [beq_some_ten_false_of_digit _ c hLast hc2]
    simp
  · have h45 : isDigitCp 45 = false := by decide
    simp [List.all_cons, h45]

theorem format_site_id_letters_hyphen (x y z : ℕ) (ds : List ℕ) (hx : isAlphaCp x = true)
    (hy : isAlphaCp y = true) (hz : isAlphaCp z = true) (hne : ds ≠ [])
    (hds : ds.all isDigitCp = true) :
    format_site_id (x :: y :: z :: 45 :: ds) = normalForm x y z ds := by
  have hstrip : pyStrip (x :: y :: z :: 45 :: ds) = x :: y :: z :: 45 :: ds := by
    apply pyStrip_of_forall_not_space
    intro c hc
    simp only [List.mem_cons] at hc
    rcases hc with h | h | h | h | h
    · rw [h]; exact not_space_of_alpha x hx
    · rw [h]; exact not_space_of_alpha y hy
    · rw [h]; exact not_space_of_alpha z hz
    · rw [h]; decide
    · exact not_space_of_digit c (List.all_eq_true.mp hds c h)
  have hmatch : matchStd (x :: y :: z :: 45 :: ds) = false := by
    unfold matchStd
    rw [stdCore_cons3_false x y z (45 :: ds) hz, Bool.false_or]
    obtain ⟨c, hc1, hc2⟩ := getLast_of_all ds isDigitCp hne hds
    have hLast : (x :: y :: z :: 45 :: ds).getLast? = some c := by
      rw [getLast?_cons3 x y z (45 :: ds) (by simp), getLast?_cons_of_ne_nil 45 ds hne]
      exact hc1
    rw [beq_some_ten_false_of_digit _ c hLast hc2, Bool.false_and]
  rw [format_site_id_eq _ (by rfl), hstrip, hmatch]
  simp only [Bool.false_eq_true, if_false]
  rw [pat2_cons_eq, if_pos (by rw [hx, hy, hz]; rfl), digitsRun?_hyphen_none ds hne hds]
  simp only [Option.map_none']
  rw [pat3_mk x y z ds hx hy hz hne hds]

/-! ## Theorems for claim C4 -/

/-- Claim C4, counterexample: the input abc1234 consists of a three-letter
alphabetic prefix followed by digits, but format_site_id maps it to
VS-ABC-1234, whose numeric part has four digits, so the result does not
match the claimed normalized pattern VS-[A-Z]{3}-\d{3} (neither exactly nor
with the trailing-newline tolerance of the Python anchors). -/
theorem format_site_id_pattern_counterexample :
    format_site_id (strChars "abc1234") = strChars "VS-ABC-1234" ∧
      stdCore (strChars "VS-ABC-1234") = false ∧
      matchStd (strChars "VS-ABC-1234") = false := by
  refine ⟨by decide, by decide, by decide⟩

/-- Claim C4 (amended): for every raw input of a three-letter alphabetic
prefix followed by one or more digits, with or without a separating hyphen,
format_site_id returns VS- followed by the upper-cased letters, a hyphen and
the numeric part zero-padded on the left to at least 3 digits; the result
matches VS-[A-Z]{3}-\d{3} exactly when the digit run has at most 3 digits
(a longer digit run is kept whole and the result then has more than three
digits). -/
theorem format_site_id_letters_digits (x y z : ℕ) (ds : List ℕ) (hx : isAlphaCp x = true)
    (hy : isAlphaCp y = true) (hz : isAlphaCp z = true) (hne : ds ≠ [])
    (hds : ds.all isDigitCp = true) :
    format_site_id (x :: y :: z :: ds) = normalForm x y z ds ∧
      format_site_id (x :: y :: z :: 45 :: ds) = normalForm x y z ds ∧
      (ds.length ≤ 3 → stdCore (normalForm x y z ds) = true) ∧
      (3 < ds.length → stdCore (normalForm x y z ds) = false) := by
  exact ⟨format_site_id_letters x y z ds hx hy hz hne hds,
    format_site_id_letters_hyphen x y z ds hx hy hz hne hds,
    fun hlen => stdCore_normalForm_of_le x y z ds hx hy hz hne hds hlen,
    fun hlen => stdCore_normalForm_false_of_gt x y z ds hlen⟩

/-- Witness for the amended C4 theorem at the concrete input cdf-42
(letters c=99 d=100 f=102, digits 4=52 2=50). -/
theorem format_site_id_letters_digits_witness :
    isAlphaCp 99 = true ∧ isAlphaCp 100 = true ∧ isAlphaCp 102 = true ∧
      ([52, 50] : List ℕ) ≠ [] ∧ ([52, 50] : List ℕ).all isDigitCp = true ∧
      (format_site_id [99, 100, 102, 52, 50] = normalForm 99 100 102 [52, 50] ∧
        format_site_id [99, 100, 102, 45, 52, 50] = normalForm 99 100 102 [52, 50] ∧
        (([52, 50] : List ℕ).length ≤ 3 → stdCore (normalForm 99 100 102 [52, 50]) = true) ∧
        (3 < ([52, 50] : List ℕ).length → stdCore (normalForm 99 100 102 [52, 50]) = false)) :=
  ⟨by decide, by decide, by decide, by decide, by decide,
    format_site_id_letters_digits 99 100 102 [52, 50] (by decide) (by decide) (by decide)
      (by decide) (by decide)⟩

/-! ## Theorems for claim C5 -/

/-- Claim C5, counterexample: idempotence fails on the input with code
points [383, 97, 98, 49], the string formed of U+017F (latin small letter
long s) followed by ab1.  No regex matches it (the long s is outside
[a-zA-Z]), so the first application returns its upper-case image SAB1 —
Python str.upper maps U+017F to S by the full Unicode case mapping — and
the second application now matches the three-letters-plus-digits pattern
and returns VS-SAB-001, a different string. -/
theorem format_site_id_idempotence_counterexample :
    format_site_id [383, 97, 98, 49] = strChars "SAB1" ∧
      format_site_id (format_site_id [383, 97, 98, 49]) = strChars "VS-SAB-001" ∧
      format_site_id (format_site_id [383, 97, 98, 49]) ≠ format_site_id [383, 97, 98, 49] :=
  ⟨by decide, by decide, by decide⟩

/-- Claim C5 (amended): format_site_id maps pdd001 to VS-PDD-001 and cdf-42
to VS-CDF-042, leaves the already-conforming VS-LYO-003 unchanged, and is
idempotent on every ASCII input string (all code points below 128); on
non-ASCII input idempotence can fail, because the final branch applies the
full Unicode upper-case mapping, whose image can match a reformatting regex
that the original string did not. -/
theorem format_site_id_examples_and_ascii_idempotent :
    format_site_id (strChars "pdd001") = strChars "VS-PDD-001" ∧
      format_site_id (strChars "cdf-42") = strChars "VS-CDF-042" ∧
      format_site_id (strChars "VS-LYO-003") = strChars "VS-LYO-003" ∧
      ∀ s : List ℕ, (∀ c ∈ s, c < 128) →
        format_site_id (format_site_id s) = format_site_id s :=
  ⟨by decide, by decide, by decide, format_site_id_idem_ascii⟩

/-- Witness for the amended C5 theorem at the ASCII input pdd001. -/
theorem format_site_id_examples_and_ascii_idempotent_witness :
    (∀ c ∈ strChars "pdd001", c < 128) ∧
      format_site_id (format_site_id (strChars "pdd001")) =
        format_site_id (strChars "pdd001") :=
  ⟨by decide,
    format_site_id_examples_and_ascii_idempotent.2.2.2 (strChars "pdd001") (by decide)⟩

/-! ## Theorems for claim C8 -/

theorem roundHalfEven_nonneg (q : ℚ) (h : 0 ≤ q) : 0 ≤ roundHalfEven q := by
  have hf : (0 : ℤ) ≤ ⌊q⌋ := Int.floor_nonneg.mpr h
  rw [show roundHalfEven q =
      (if q - (⌊q⌋ : ℚ) < 1 / 2 then ⌊q⌋
      else if 1 / 2 < q - (⌊q⌋ : ℚ) then ⌊q⌋ + 1
      else if 2 ∣ ⌊q⌋ then ⌊q⌋
      else ⌊q⌋ + 1) from rfl]
  split_ifs
  all_goals omega

theorem pyRound2_nonneg (q : ℚ) (h : 0 ≤ q) : 0 ≤ pyRound2 q := by
  unfold pyRound2
  apply div_nonneg _ (by norm_num)
  exact_mod_cast roundHalfEven_nonneg (q * 100) (by positivity)

/-- Claim C8: with the default panel geometry, efficiency is non-negative
for power ≥ 0 and irradiance > 0; zero power with positive irradiance gives
0; zero irradiance gives 0 for every power, and in fact any non-positive
irradiance gives 0. -/
theorem calculate_efficiency_props :
    (∀ p i : ℚ, 0 ≤ p → 0 < i → 0 ≤ calculate_efficiency p i) ∧
      (∀ i : ℚ, 0 < i → calculate_efficiency 0 i = 0) ∧
      (∀ p : ℚ, calculate_efficiency p 0 = 0) ∧
      (∀ p i : ℚ, i ≤ 0 → calculate_efficiency p i = 0) := by
  have key : ∀ p i : ℚ, 0 ≤ p → 0 < i →
      calculate_efficiency p i = pyRound2 (p / (i * ((1.6 : ℚ) * ((1 : ℤ) : ℚ)) / 1000) * 100) := by
    intro p i hp hi
    unfold calculate_efficiency
    rw [if_neg (not_le.mpr hi), if_neg (not_lt.mpr hp)]
    dsimp only
    have hpos : (0 : ℚ) < i * ((1.6 : ℚ) * ((1 : ℤ) : ℚ)) / 1000 := by positivity
    rw [if_neg hpos.ne']
  refine ⟨?_, ?_, ?_, ?_⟩
  · intro p i hp hi
    rw [key p i hp hi]
    have hpos : (0 : ℚ) < i * ((1.6 : ℚ) * ((1 : ℤ) : ℚ)) / 1000 := by positivity
    apply pyRound2_nonneg
    positivity
  · intro i hi
    rw [key 0 i le_rfl hi, zero_div, zero_mul]
    simp [pyRound2, roundHalfEven]
  · intro p
    unfold calculate_efficiency
    rw [if_pos le_rfl]
  · intro p i hi
    unfold calculate_efficiency
    rw [if_pos hi]

/-- Witness for C8 at power 32 kW and irradiance 800 W per square meter. -/
theorem calculate_efficiency_props_witness :
    (0 : ℚ) ≤ 32 ∧ (0 : ℚ) < 800 ∧ 0 ≤ calculate_efficiency 32 800 :=
  ⟨by norm_num, by norm_num, calculate_efficiency_props.1 32 800 (by norm_num) (by norm_num)⟩

/-! ## Theorems for claim C6 -/

/-- Claim C6: the valid payload yields (True, []); the payload missing
site_id with power -5 and status bogus yields False together with exactly
the three accumulated errors: missing site_id, negative power, invalid
status — none of the checks short-circuits the others. -/
theorem validate_site_data_examples :
    validate_site_data site_data_example_valid = Except.ok (true, []) ∧
      validate_site_data site_data_example_invalid =
        Except.ok (false,
          [ValidationError.missingField "site_id", ValidationError.powerNegative,
            ValidationError.invalidStatus]) := by
  refine ⟨by decide, by decide⟩

/-! ## Theorems for claim C10 -/

/-- Claim C10: whenever validate_site_data returns a pair, the boolean flag
is true exactly when the returned error list is empty. -/
theorem validate_site_data_flag_iff (data : SiteData) (flag : Bool)
    (errors : List ValidationError)
    (h : validate_site_data data = Except.ok (flag, errors)) :
    flag = true ↔ errors = [] := by
  unfold validate_site_data at h
  split at h
  · simp only [Except.ok.injEq, Prod.mk.injEq] at h
    rw [← h.1, ← h.2]
    exact List.isEmpty_iff
  · exact absurd h (by simp)
  · simp only [Except.ok.injEq, Prod.mk.injEq] at h
    rw [← h.1, ← h.2]
    exact List.isEmpty_iff

/-- Witness for C10 at the valid example payload. -/
theorem validate_site_data_flag_iff_witness :
    validate_site_data site_data_example_valid = Except.ok (true, []) ∧
      (true = true ↔ ([] : List ValidationError) = []) :=
  ⟨by decide, validate_site_data_flag_iff site_data_example_valid true [] (by decide)⟩

/-! ## Theorems for claim C7 -/

theorem isPrefixOf_self_append (a b : List ℕ) : List.isPrefixOf a (a ++ b) = true := by
  induction a with
  | nil => simp [List.isPrefixOf]
  | cons x xs ih => simp [List.isPrefixOf, ih]

/-- Claim C7, counterexample: the claimed round trip fails for the empty
secret, because verify_webhook_signature returns False immediately when the
secret is empty, even for the correctly computed signature. -/
theorem verify_webhook_signature_empty_secret_counterexample :
    verify_webhook_signature [] (strChars "sha256=" ++ hmac_sha256_hexdigest [] []) [] =
      false := rfl

/-- Claim C7 (amended): for every payload and every nonempty secret,
verifying the payload against sha256= followed by the hex HMAC-SHA256 digest
of the payload under the secret returns True (for the empty secret the
function fails closed and returns False). -/
theorem verify_webhook_signature_round_trip (payload secret : List ℕ) (h : secret ≠ []) :
    verify_webhook_signature payload
      (strChars "sha256=" ++ hmac_sha256_hexdigest secret payload) secret = true := by
  unfold verify_webhook_signature
  rw [if_neg h]
  dsimp only
  rw [if_pos (isPrefixOf_self_append _ _),
    show (7 : ℕ) = (strChars "sha256=").length from rfl, List.drop_left]
  simp

/-- Witness for the amended C7 theorem at a concrete payload and secret. -/
theorem verify_webhook_signature_round_trip_witness :
    strChars "mon_secret" ≠ [] ∧
      verify_webhook_signature (strChars "payload")
        (strChars "sha256=" ++ hmac_sha256_hexdigest (strChars "mon_secret")
          (strChars "payload"))
        (strChars "mon_secret") = true :=
  ⟨by decide,
    verify_webhook_signature_round_trip (strChars "payload") (strChars "mon_secret")
      (by decide)⟩

/-! ## Theorems for claim C1 -/

/-- Claim C1, counterexample: an HTTP 201 response does not return the
parsed JSON body; get_site_production only accepts 200, so a 201 with a
parsed body falls into the final else branch and returns None. -/
theorem get_site_production_201_counterexample :
    (get_site_production "VS-PDD-001" (HttpResp.resp 201 (some (0 : ℕ)))).1 = none ∧
      (get_site_production "VS-PDD-001" (HttpResp.resp 201 (some (0 : ℕ)))).1 ≠ some 0 := by
  refine ⟨rfl, by decide⟩

/-- Claim C1 (amended): get_site_production returns the parsed JSON body
exactly for an HTTP 200 response; every other status (201 included, hence
401, 403, 404 and all remaining codes), a body whose JSON parsing raises, a
network timeout, a connection error, and any other unexpected exception all
return the sentinel None, and no failure propagates an exception. -/
theorem get_site_production_outcomes {α : Type} (site_id : String) (d : α) (s : ℕ)
    (b : Option α) :
    (get_site_production site_id (HttpResp.resp 200 (some d))).1 = some d ∧
      (s ≠ 200 → (get_site_production site_id (HttpResp.resp s b)).1 = none) ∧
      (get_site_production site_id (HttpResp.resp 200 (none : Option α))).1 = none ∧
      (get_site_production site_id (HttpResp.timeout : HttpResp α)).1 = none ∧
      (get_site_production site_id (HttpResp.connError : HttpResp α)).1 = none ∧
      (get_site_production site_id (HttpResp.otherExc : HttpResp α)).1 = none := by
  refine ⟨rfl, ?_, rfl, rfl, rfl, rfl⟩
  intro hs
  simp only [get_site_production]
  rw [if_neg hs]
  split_ifs
  all_goals rfl

/-- Witness for the amended C1 theorem at status 404. -/
theorem get_site_production_outcomes_witness :
    (404 : ℕ) ≠ 200 ∧
      (get_site_production "VS-PDD-001" (HttpResp.resp 404 (some (0 : ℕ)))).1 = none :=
  ⟨by decide,
    (get_site_production_outcomes "VS-PDD-001" (0 : ℕ) 404 (some 0)).2.1 (by decide)⟩

/-! ## Theorems for claim C2 -/

/-- Claim C2: in the monitoring loop, an exception escaping the per-cycle
body is caught and followed by the same inter-cycle sleep as the normal
path before the loop re-enters; an iteration breaks the loop exactly when
the outcome is the KeyboardInterrupt; and over any trace of cycle outcomes
the loop terminates exactly when a KeyboardInterrupt occurs in it. -/
theorem monitor_all_sites_failure_policy (interval : ℕ) :
    (∀ msg, monitor_loop_iter interval (CycleOutcome.raised msg) = some interval) ∧
      monitor_loop_iter interval CycleOutcome.completed = some interval ∧
      (∀ o, monitor_loop_iter interval o = none ↔ o = CycleOutcome.keyboardInterrupt) ∧
      (∀ outcomes, (monitor_all_sites interval outcomes).2 = true ↔
        CycleOutcome.keyboardInterrupt ∈ outcomes) := by
  refine ⟨fun msg => rfl, rfl, ?_, ?_⟩
  · intro o
    cases o
    all_goals simp [monitor_loop_iter]
  · intro outcomes
    induction outcomes with
    | nil => simp [monitor_all_sites]
    | cons o rest ih =>
      cases o with
      | completed => simpa [monitor_all_sites, monitor_loop_iter] using ih
      | keyboardInterrupt => simp [monitor_all_sites, monitor_loop_iter]
      | raised msg => simpa [monitor_all_sites, monitor_loop_iter] using ih

/-! ## Theorems for claim C9 -/

theorem save_alert_foldl (alerts : List Alert) (acc : List AlertRow) :
    alerts.foldl
        (fun rows a => if isHighOrCritical a then rows ++ [save_alert a] else rows) acc
      = acc ++ (alerts.filter isHighOrCritical).map save_alert := by
  induction alerts generalizing acc with
  | nil => simp
  | cons a rest ih =>
    by_cases h : isHighOrCritical a
    · simp [List.foldl_cons, h, ih, List.filter_cons]
    · simp [List.foldl_cons, h, ih, List.filter_cons]

theorem get_alerts_rows (r : HttpResp (List Alert)) :
    (get_alerts r).2 = ((get_alerts r).1.filter isHighOrCritical).map save_alert := by
  match r with
  | .resp status body =>
    by_cases h : status = 200
    · subst h
      cases body with
      | some alerts => simp [get_alerts, save_alert_foldl alerts []]
      | none => simp [get_alerts]
    · simp [get_alerts, h]
  | .timeout => simp [get_alerts]
  | .connError => simp [get_alerts]
  | .otherExc => simp [get_alerts]

/-- Claim C9: every row inserted into the local alerts table during
get_alerts originates from a fetched alert whose severity is high or
critical, and is created with the resolved flag unset; a returned alert of
any other severity is never persisted. -/
theorem get_alerts_persistence (r : HttpResp (List Alert)) :
    (∀ row ∈ (get_alerts r).2, row.resolved = false ∧
      ∃ a ∈ (get_alerts r).1, isHighOrCritical a = true ∧ row = save_alert a) ∧
      (∀ a ∈ (get_alerts r).1, isHighOrCritical a = false →
        ∀ row ∈ (get_alerts r).2, row ≠ save_alert a) := by
  constructor
  · intro row hrow
    rw [get_alerts_rows r] at hrow
    obtain ⟨a, ha, rfl⟩ := List.mem_map.mp hrow
    obtain ⟨ha1, ha2⟩ := List.mem_filter.mp ha
    exact ⟨rfl, a, ha1, ha2, rfl⟩
  · intro a ha hlow row hrow hcontra
    rw [get_alerts_rows r] at hrow
    obtain ⟨b, hb, hbeq⟩ := List.mem_map.mp hrow
    obtain ⟨-, hb2⟩ := List.mem_filter.mp hb
    have hsev : b.severity = a.severity := by
      have : save_alert b = save_alert a := hbeq.trans hcontra
      exact congrArg AlertRow.severity this
    rw [show isHighOrCritical b = isHighOrCritical a from by
      unfold isHighOrCritical; rw [hsev], hlow] at hb2
    exact Bool.noConfusion hb2

/-- Witness for C9 on a 200 response carrying one critical and one low
alert: the critical row is inserted unresolved and traced to its alert, and
the low alert, though returned, matches no inserted row. -/
theorem get_alerts_persistence_witness :
    (save_alert alert_example_critical ∈ (get_alerts alerts_response_example).2 ∧
      ((save_alert alert_example_critical).resolved = false ∧
        ∃ a ∈ (get_alerts alerts_response_example).1,
          isHighOrCritical a = true ∧ save_alert alert_example_critical = save_alert a)) ∧
      (alert_example_low ∈ (get_alerts alerts_response_example).1 ∧
        isHighOrCritical alert_example_low = false ∧
        save_alert alert_example_critical ∈ (get_alerts alerts_response_example).2 ∧
        save_alert alert_example_critical ≠ save_alert alert_example_low) :=
  ⟨⟨by decide,
    (get_alerts_persistence alerts_response_example).1 (save_alert alert_example_critical)
      (by decide)⟩,
    ⟨by decide, by decide, by decide,
      (get_alerts_persistence alerts_response_example).2 alert_example_low (by decide)
        (by decide) (save_alert alert_example_critical) (by decide)⟩⟩

end SolarSync
